import Mathlib

/-!
Verification of the execution-engine proxy (`eeproxy` package, file
`proxy.go`): a shallow embedding of the per-connection proxy state machine
and its message dispatcher, together with theorems about the call-frame
stack, the reservation/readiness protocol, identity-field assignment and
error propagation.

External collaborators (the IPC transport, the pool manager's `onReady`
callback and the host `CallContext`) are modelled as oracles in an
environment record; every outward interaction (transport sends, host
callbacks, readiness notifications, transport close) is recorded as an
explicit effect so that theorems can speak about what the proxy emitted.
-/

namespace EEProxy

/-- Wire tag of the VERSION message (`msgVERSION = 0`). -/
def msgVERSION : Nat := 0
/-- Wire tag of the INVOKE message (`msgINVOKE = 1`). -/
def msgINVOKE : Nat := 1
/-- Wire tag of the RESULT message (`msgRESULT = 2`). -/
def msgRESULT : Nat := 2
/-- Wire tag of the GETVALUE message (`msgGETVALUE = 3`). -/
def msgGETVALUE : Nat := 3
/-- Wire tag of the SETVALUE message (`msgSETVALUE = 4`). -/
def msgSETVALUE : Nat := 4
/-- Wire tag of the CALL message (`msgCALL = 5`). -/
def msgCALL : Nat := 5
/-- Wire tag of the EVENT message (`msgEVENT = 6`). -/
def msgEVENT : Nat := 6
/-- Wire tag of the GETINFO message (`msgGETINFO = 7`). -/
def msgGETINFO : Nat := 7
/-- Wire tag of the GETBALANCE message (`msgGETBALANCE = 8`). -/
def msgGETBALANCE : Nat := 8
/-- Wire tag of the GETAPI message (`msgGETAPI = 9`). -/
def msgGETAPI : Nat := 9

/-- A `codec.TypedObj` value: either the codec's nil/unit sentinel
(`codec.Nil`) or some other typed value, kept opaque. -/
inductive TypedObj where
  | nil : TypedObj
  | obj : Nat → TypedObj
deriving DecidableEq

/-- Byte strings (`[]byte`), modelled as lists of naturals. -/
abbrev Bytes := List Nat

/-- The internal engine-kind value (`scoreType`, an integer-valued enum). -/
abbrev ScoreType := Nat

/-- Modelled from the spec: the table `scoreNameToType` mapping the
engine-kind string of a VERSION message to the internal `scoreType` value
is not among the provided source files (only its use in
`proxy.HandleMessage` is).  Per the spec it is a closed enumeration of
known engine-kind strings; the spec's scenarios use "python" as a known
kind and treat every other string (e.g. "martian") as unknown. -/
def scoreNameToType (s : String) : Option ScoreType :=
  if s = "python" then some 0 else none

/-- A call frame (`callFrame`): the `to` address of the invocation
(`none` for GetAPI frames) and a handle to the host `CallContext`.
The `prev` link of the Go struct is represented by the list structure of
`ProxyState.frame`. -/
structure callFrame where
  addr : Option Nat
  ctx : Nat
deriving DecidableEq

/-- The mutable state of one proxy (`struct proxy`): the reservation
flag, the identity fields set by VERSION, and the frame stack (head =
top = innermost in-flight call).  The transport and manager handles are
modelled as oracles, the intrusive pool links are manager-internal. -/
structure ProxyState where
  reserved : Bool
  version : Nat
  uid : String
  scoreType : ScoreType
  frame : List callFrame
deriving DecidableEq

/-- The state of a freshly accepted connection (`newConnection`): all
fields hold Go zero values and the frame stack is empty. -/
def initialState : ProxyState :=
  { reserved := false, version := 0, uid := "", scoreType := 0, frame := [] }

/-- Payloads of outbound messages handed to `conn.Send`. -/
inductive OutPayload where
  | invoke (code : String) (isQry : Bool) (fromAddr toAddr : Nat)
      (value limit : Int) (method : String) (params : TypedObj)
  | getApiReq (code : String)
  | result (status : Nat) (stepUsed : Int) (res : TypedObj)
  | getValueResp (success : Bool) (value : Option Bytes)
  | getInfoResp (encoded : TypedObj)
  | getBalanceResp (balance : Int)
deriving DecidableEq

/-- Observable interactions of the proxy with its collaborators: transport
sends, host-context callbacks, manager readiness notifications and
transport close. -/
inductive Effect where
  | send (tag : Nat) (payload : OutPayload)
  | onResult (ctx status : Nat) (steps : Int) (res : TypedObj)
  | onApi (ctx status : Nat) (info : Nat)
  | onCall (ctx : Nat) (fromAddr : Option Nat) (toAddr : Nat)
      (value limit : Int) (method : String) (params : TypedObj)
  | onEvent (ctx : Nat) (addr : Option Nat) (indexed data : List Bytes)
  | getValueCall (ctx : Nat) (key : Bytes)
  | setValueCall (ctx : Nat) (key value : Bytes)
  | deleteValueCall (ctx : Nat) (key : Bytes)
  | getInfoCall (ctx : Nat)
  | getBalanceCall (ctx : Nat) (addr : Nat)
  | onReady (st : ScoreType)
  | close
deriving DecidableEq

/-- Errors a dispatch or host-side operation can return, mirroring the
`error` values produced in `proxy.go`. -/
inductive PErr where
  | codecErr (tag : Nat)
  | unknownSCOREName (s : String)
  | unknownMessage (tag : Nat)
  | hostErr (e : Nat)
  | onReadyErr (e : Nat)
  | sendErr (e : Nat)
  | encodeErr (e : Nat)
deriving DecidableEq

/-- Oracles for the external collaborators: the outcome of `conn.Send`,
of `mgr.onReady`, of the host `CallContext` operations and of
`common.EncodeAny` (encoding modelled as the identity on success). -/
structure Env where
  sendErr : Option Nat
  onReadyErr : Option Nat
  getValue : Bytes → Except Nat (Option Bytes)
  setValue : Bytes → Bytes → Option Nat
  deleteValue : Bytes → Option Nat
  getInfo : TypedObj
  encodeAny : TypedObj → Except Nat TypedObj
  getBalance : Nat → Int

/-- An environment in which every external operation succeeds, storage
lookups miss, and balances are zero. -/
def env0 : Env :=
  { sendErr := none, onReadyErr := none,
    getValue := fun _ => .ok none,
    setValue := fun _ _ => none,
    deleteValue := fun _ => none,
    getInfo := .nil,
    encodeAny := fun v => .ok v,
    getBalance := fun _ => 0 }

/-- Result of a proxy operation: the new state, the effects emitted (in
order), and the returned `error` if any. -/
abbrev Res := ProxyState × List Effect × Option PErr

/-- The `return p.conn.Send(tag, m)` pattern: emit the send effect after
`effs` and return the transport's error, if any. -/
def sendOut (p : ProxyState) (env : Env) (tag : Nat) (pay : OutPayload)
    (effs : List Effect) : Res :=
  match env.sendErr with
  | some e => (p, effs ++ [.send tag pay], some (.sendErr e))
  | none => (p, effs ++ [.send tag pay], none)

/-- Model of `proxy.Invoke`: push a frame `{addr := to, ctx}` onto the stack, then
send an INVOKE message built from the arguments.  The push is not rolled
back when the send fails. -/
def Proxy.Invoke (p : ProxyState) (env : Env) (ctx : Nat) (code : String)
    (isQuery : Bool) (fromAddr toAddr : Nat) (value limit : Int)
    (method : String) (params : TypedObj) : Res :=
  sendOut { p with frame := { addr := some toAddr, ctx := ctx } :: p.frame }
    env msgINVOKE (.invoke code isQuery fromAddr toAddr value limit method params) []

/-- Model of `proxy.GetAPI`: push a frame `{addr := none, ctx}` onto the stack, then
send a GETAPI request.  The push is not rolled back when the send fails. -/
def Proxy.GetAPI (p : ProxyState) (env : Env) (ctx : Nat) (code : String) : Res :=
  sendOut { p with frame := { addr := none, ctx := ctx } :: p.frame }
    env msgGETAPI (.getApiReq code) []

/-- Model of `proxy.reserve`: test-and-set of the `reserved` flag; returns `false`
when the proxy was already reserved, `true` (and sets the flag) otherwise. -/
def Proxy.reserve (p : ProxyState) : ProxyState × Bool :=
  if p.reserved then (p, false) else ({ p with reserved := true }, true)

/-- Model of `proxy.Release`: a no-op when the proxy is not reserved; otherwise
clears `reserved` and, when the frame stack is empty, notifies the manager
via `onReady`, closing the transport if that notification fails. -/
def Proxy.Release (p : ProxyState) (env : Env) : ProxyState × List Effect :=
  if p.reserved then
    if p.frame.isEmpty then
      match env.onReadyErr with
      | some _ => ({ p with reserved := false }, [.onReady p.scoreType, .close])
      | none => ({ p with reserved := false }, [.onReady p.scoreType])
    else ({ p with reserved := false }, [])
  else (p, [])

/-- Model of `proxy.SendResult`: build a `resultMessage` from `status`, `steps` and
`result`, substituting the codec's nil sentinel (`codec.Nil`) when the host
passes no result value, and send it as a RESULT message.  The `ctx`
argument is unused, as in the source. -/
def Proxy.SendResult (p : ProxyState) (env : Env) (_ctx : Nat) (status : Nat)
    (steps : Int) (result : Option TypedObj) : Res :=
  sendOut p env msgRESULT (.result status steps (result.getD TypedObj.nil)) []

/-- Inbound (decoded) messages handled by `proxy.HandleMessage`.
`malformed tag` stands for a message with the given tag whose payload
fails to decode (or, for a tag outside the nine known ones, any message). -/
inductive InMsg where
  | version (ver : Nat) (uid : String) (typ : String)
  | result (status : Nat) (stepUsed : Int) (res : TypedObj)
  | getValue (key : Bytes)
  | setValue (key : Bytes) (isDelete : Bool) (value : Bytes)
  | call (toAddr : Nat) (value limit : Int) (method : String) (params : TypedObj)
  | event (indexed data : List Bytes)
  | getInfo
  | getBalance (addr : Nat)
  | getApi (status : Nat) (info : Nat)
  | malformed (tag : Nat)
deriving DecidableEq

/-- The readiness check shared by the RESULT and GETAPI-response branches:
after the terminal pop and callback, if the stack is empty and the proxy is
not reserved, notify the manager via `onReady` and return its error. -/
def terminalTail (p1 : ProxyState) (env : Env) (effs : List Effect) : Res :=
  if p1.frame.isEmpty && !p1.reserved then
    match env.onReadyErr with
    | some e => (p1, effs ++ [.onReady p1.scoreType], some (.onReadyErr e))
    | none => (p1, effs ++ [.onReady p1.scoreType], none)
  else (p1, effs, none)

/-- The GETINFO branch of `proxy.HandleMessage`: read the top frame's
context info, encode it, and send the reply; the payload (if any) is never
decoded.  `none` models the nil-frame dereference (runtime panic) the Go
code performs when the frame stack is empty. -/
def handleGetInfo (p : ProxyState) (env : Env) : Option Res :=
  match p.frame with
  | [] => none
  | f :: _ =>
    match env.encodeAny env.getInfo with
    | .error e => some (p, [.getInfoCall f.ctx], some (.encodeErr e))
    | .ok eo => some (sendOut p env msgGETINFO (.getInfoResp eo) [.getInfoCall f.ctx])

/-- Model of `proxy.HandleMessage`: dispatch one inbound message.  The result is
the new state, the emitted effects and the returned `error`; `none` models
the nil-frame dereference (runtime panic) the Go code performs when a
frame-consuming message arrives while the frame stack is empty. -/
def Proxy.HandleMessage (p : ProxyState) (env : Env) (m : InMsg) : Option Res :=
  match m with
  | .version v u t =>
    let p1 := { p with version := v, uid := u }
    match scoreNameToType t with
    | none => some (p1, [], some (.unknownSCOREName t))
    | some st =>
      let p2 := { p1 with scoreType := st }
      match env.onReadyErr with
      | some e => some (p2, [.onReady st], some (.onReadyErr e))
      | none => some (p2, [.onReady st], none)
  | .result status stepUsed res =>
    match p.frame with
    | [] => none
    | f :: rest =>
      some (terminalTail { p with frame := rest } env [.onResult f.ctx status stepUsed res])
  | .getValue key =>
    match p.frame with
    | [] => none
    | f :: _ =>
      match env.getValue key with
      | .error e => some (p, [.getValueCall f.ctx key], some (.hostErr e))
      | .ok (some value) =>
        some (sendOut p env msgGETVALUE (.getValueResp true (some value)) [.getValueCall f.ctx key])
      | .ok none =>
        some (sendOut p env msgGETVALUE (.getValueResp false none) [.getValueCall f.ctx key])
  | .setValue key isDelete value =>
    match p.frame with
    | [] => none
    | f :: _ =>
      if isDelete then
        match env.deleteValue key with
        | some e => some (p, [.deleteValueCall f.ctx key], some (.hostErr e))
        | none => some (p, [.deleteValueCall f.ctx key], none)
      else
        match env.setValue key value with
        | some e => some (p, [.setValueCall f.ctx key value], some (.hostErr e))
        | none => some (p, [.setValueCall f.ctx key value], none)
  | .call toAddr value limit method params =>
    match p.frame with
    | [] => none
    | f :: _ => some (p, [.onCall f.ctx f.addr toAddr value limit method params], none)
  | .event indexed data =>
    match p.frame with
    | [] => none
    | f :: _ => some (p, [.onEvent f.ctx f.addr indexed data], none)
  | .getInfo => handleGetInfo p env
  | .getBalance addr =>
    match p.frame with
    | [] => none
    | f :: _ =>
      some (sendOut p env msgGETBALANCE (.getBalanceResp (env.getBalance addr)) [.getBalanceCall f.ctx addr])
  | .getApi status info =>
    match p.frame with
    | [] => none
    | f :: rest =>
      some (terminalTail { p with frame := rest } env [.onApi f.ctx status info])
  | .malformed tag =>
    if tag = msgGETINFO then handleGetInfo p env
    else if tag ≤ 9 then some (p, [], some (.codecErr tag))
    else some (p, [], some (.unknownMessage tag))

/-- Modelled from the spec: the IPC connection loop (`common/ipc`, not
among the provided source files) that drives `HandleMessage` for each
framed inbound message; per the spec, any error propagated out of dispatch
aborts the connection, i.e. the transport is closed. -/
def dispatch (p : ProxyState) (env : Env) (m : InMsg) : Option Res :=
  match Proxy.HandleMessage p env m with
  | none => none
  | some (p1, effs, some e) => some (p1, effs ++ [.close], some e)
  | some (p1, effs, none) => some (p1, effs, none)

/-- One step of the combined host/engine system: a host-side call on the
proxy or the delivery of one inbound message. -/
inductive Step where
  | reserve
  | release
  | invoke (ctx : Nat) (code : String) (isQuery : Bool) (fromAddr toAddr : Nat)
      (value limit : Int) (method : String) (params : TypedObj)
  | getAPI (ctx : Nat) (code : String)
  | sendResult (ctx status : Nat) (steps : Int) (result : Option TypedObj)
  | recv (m : InMsg)
deriving DecidableEq

/-- Semantics of one step against the given environment. -/
def step (p : ProxyState) (s : Step) (env : Env) : Option Res :=
  match s with
  | .reserve => some ((Proxy.reserve p).1, [], none)
  | .release => some ((Proxy.Release p env).1, (Proxy.Release p env).2, none)
  | .invoke ctx code q fa ta v l mth prm => some (Proxy.Invoke p env ctx code q fa ta v l mth prm)
  | .getAPI ctx code => some (Proxy.GetAPI p env ctx code)
  | .sendResult ctx st sp r => some (Proxy.SendResult p env ctx st sp r)
  | .recv m => dispatch p env m

/-- Run a trace of steps.  The run aborts (`none`) when a dispatch panics
or when an inbound message is dispatched with an error (the connection is
then dead); errors returned to the host from its own calls do not stop the
trace. -/
def run (p : ProxyState) : List (Step × Env) → Option ProxyState
  | [] => some p
  | (s, env) :: rest =>
    match step p s env with
    | none => none
    | some (p1, _, err) =>
      match s, err with
      | .recv _, some _ => none
      | _, _ => run p1 rest

/-- Number of frames pushed by a step: `invoke` and `getAPI` push one. -/
def stepPushes : Step → Nat
  | .invoke .. => 1
  | .getAPI .. => 1
  | _ => 0

/-- Number of frames popped by a step: delivery of a RESULT or
GETAPI-response pops one. -/
def stepPops : Step → Nat
  | .recv (.result ..) => 1
  | .recv (.getApi ..) => 1
  | _ => 0

/-- Total pushes over a trace. -/
def pushes (tr : List (Step × Env)) : Nat := (tr.map (fun se => stepPushes se.1)).sum

/-- Total pops over a trace. -/
def pops (tr : List (Step × Env)) : Nat := (tr.map (fun se => stepPops se.1)).sum

/-- Number of `onReady` notifications among a list of effects. -/
def countOnReady (l : List Effect) : Nat :=
  l.countP fun e => match e with | .onReady _ => true | _ => false

/-- The proxy is idle: empty frame stack and not reserved. -/
def isIdle (p : ProxyState) : Bool := p.frame.isEmpty && !p.reserved

/-- Whether a step is the delivery of a (well-formed) VERSION message. -/
def isVersionStep : Step → Bool
  | .recv (.version ..) => true
  | _ => false

/-- Whether a step is a host `release()` call. -/
def isRelease : Step → Bool
  | .release => true
  | _ => false

/-- Well-formed inbound messages whose handler consumes the top frame
(every message other than VERSION, i.e. all intermediates and both
terminals). -/
def isFrameMsg : InMsg → Bool
  | .result .. => true
  | .getValue .. => true
  | .setValue .. => true
  | .call .. => true
  | .event .. => true
  | .getInfo => true
  | .getBalance .. => true
  | .getApi .. => true
  | _ => false

/-- C4 (counterexample): a GETVALUE and a RESULT message arriving while
the frame stack is empty make `HandleMessage` dereference the nil top
frame (modelled as `none`, a runtime panic) — dispatch crashes instead of
reporting a ProtocolViolation error (no such error value exists in the
code). -/
theorem empty_stack_message_panics_cex :
    Proxy.HandleMessage initialState env0 (.getValue [1]) = none ∧
    Proxy.HandleMessage initialState env0 (.result 0 42 .nil) = none ∧
    dispatch initialState env0 (.getValue [1]) = none := by
  refine ⟨rfl, rfl, rfl⟩

/-- C4 (amended): every well-formed intermediate or terminal message
(GETVALUE, SETVALUE, CALL, EVENT, GETINFO, GETBALANCE, RESULT,
GETAPI-response) that arrives while the frame stack is empty makes the
dispatcher dereference the nil top frame — a runtime panic, before any
host callback is invoked and without producing any error value. -/
theorem empty_stack_message_panics (p : ProxyState) (env : Env) (m : InMsg)
    (hf : p.frame = []) (hm : isFrameMsg m = true) :
    Proxy.HandleMessage p env m = none := by
  cases m <;> simp_all [Proxy.HandleMessage, isFrameMsg, handleGetInfo]

/-- Witness for `empty_stack_message_panics` at the initial state and a
concrete GETVALUE message. -/
theorem empty_stack_message_panics_witness :
    initialState.frame = [] ∧ isFrameMsg (.getValue [1]) = true ∧
    Proxy.HandleMessage initialState env0 (.getValue [1]) = none :=
  ⟨rfl, rfl, empty_stack_message_panics initialState env0 (.getValue [1]) rfl rfl⟩

/-- C6 (counterexample): in the initial state (not reserved, empty frame
stack) `Release` returns without emitting any effect — in particular no
`onReady` notification, although the frame stack is empty. -/
theorem release_unreserved_no_notify_cex :
    Proxy.Release initialState env0 = (initialState, []) := by
  rfl

/-- C6 (amended): when the proxy is reserved, `Release` clears the
`reserved` flag and emits exactly one `onReady` notification iff the frame
stack is empty (followed by a transport close iff that notification
fails); when the proxy is not reserved, `Release` is a no-op. -/
theorem release_characterization (p : ProxyState) (env : Env) :
    (p.reserved = true →
      (Proxy.Release p env).1 = { p with reserved := false } ∧
      countOnReady (Proxy.Release p env).2 = (if p.frame.isEmpty then 1 else 0) ∧
      (Effect.close ∈ (Proxy.Release p env).2 ↔
        (p.frame.isEmpty = true ∧ env.onReadyErr.isSome = true))) ∧
    (p.reserved = false → Proxy.Release p env = (p, [])) := by
  unfold Proxy.Release
  cases hr : p.reserved
  · simp
  · cases hf : p.frame.isEmpty <;> cases he : env.onReadyErr <;>
      simp_all [countOnReady]

/-- Witness for `release_characterization` on a reserved, idle proxy. -/
theorem release_characterization_witness :
    (Proxy.Release { reserved := true, version := 1, uid := "u", scoreType := 0,
                     frame := [] } env0).1
      = { reserved := false, version := 1, uid := "u", scoreType := 0, frame := [] } ∧
    countOnReady (Proxy.Release { reserved := true, version := 1, uid := "u",
                                  scoreType := 0, frame := [] } env0).2 = 1 := by
  have h := (release_characterization
    { reserved := true, version := 1, uid := "u", scoreType := 0, frame := [] } env0).1 rfl
  exact ⟨h.1, by simpa using h.2.1⟩

/-- C7: a VERSION message whose engine-kind string is not in the closed
enumeration makes dispatch fail with the unknown-engine-kind error (spelled
`UnknownSCOREName` in the code) and emits no effect — in particular no
`onReady` notification.  The `version` and `uid` fields are still
assigned before the kind lookup, as in the source. -/
theorem version_unknown_kind_rejected (p : ProxyState) (env : Env) (v : Nat)
    (u t : String) (h : scoreNameToType t = none) :
    Proxy.HandleMessage p env (.version v u t) =
      some ({ p with version := v, uid := u }, [], some (.unknownSCOREName t)) ∧
    countOnReady [] = 0 := by
  constructor
  · simp [Proxy.HandleMessage, h]
  · rfl

/-- Witness for `version_unknown_kind_rejected` at the spec's scenario S5
input `VERSION{1, "u", "martian"}`. -/
theorem version_unknown_kind_rejected_witness :
    scoreNameToType "martian" = none ∧
    (Proxy.HandleMessage initialState env0 (.version 1 "u" "martian") =
      some ({ initialState with version := 1, uid := "u" }, [],
        some (.unknownSCOREName "martian")) ∧
     countOnReady [] = 0) :=
  ⟨by decide, version_unknown_kind_rejected initialState env0 1 "u" "martian" (by decide)⟩

/-- C8: `SendResult` with no host-supplied result value (nil) sends a
RESULT message whose result field is the codec's nil sentinel
(`codec.Nil`), with `status` and `steps` passed through unchanged; a
host-supplied value is passed through verbatim.  The proxy state is not
changed. -/
theorem send_result_nil_sentinel (p : ProxyState) (env : Env) (ctx status : Nat)
    (steps : Int) :
    (Proxy.SendResult p env ctx status steps none).1 = p ∧
    (Proxy.SendResult p env ctx status steps none).2.1
      = [.send msgRESULT (.result status steps TypedObj.nil)] ∧
    ∀ r : TypedObj, (Proxy.SendResult p env ctx status steps (some r)).2.1
      = [.send msgRESULT (.result status steps r)] := by
  unfold Proxy.SendResult sendOut
  cases h : env.sendErr <;> simp [h]

/-- C10: when the transport send fails, the frame pushed by `Invoke` (and
by `GetAPI`) remains on the stack: the state after the failed call is the
prior state with exactly one extra frame on top, and the transport error
is returned to the host. -/
theorem failed_send_keeps_pushed_frame (p : ProxyState) (env : Env) (ctx : Nat)
    (code : String) (isQuery : Bool) (fromAddr toAddr : Nat) (value limit : Int)
    (method : String) (params : TypedObj) (e : Nat) (h : env.sendErr = some e) :
    Proxy.Invoke p env ctx code isQuery fromAddr toAddr value limit method params
      = ({ p with frame := { addr := some toAddr, ctx := ctx } :: p.frame },
         [.send msgINVOKE (.invoke code isQuery fromAddr toAddr value limit method params)],
         some (.sendErr e)) ∧
    Proxy.GetAPI p env ctx code
      = ({ p with frame := { addr := none, ctx := ctx } :: p.frame },
         [.send msgGETAPI (.getApiReq code)], some (.sendErr e)) := by
  simp [Proxy.Invoke, Proxy.GetAPI, sendOut, h]

/-- Witness for `failed_send_keeps_pushed_frame` with a concrete failing
transport. -/
theorem failed_send_keeps_pushed_frame_witness :
    Proxy.Invoke initialState { env0 with sendErr := some 3 } 7 "c" false 1 2 0 100 "m" .nil
      = ({ initialState with frame := [{ addr := some 2, ctx := 7 }] },
         [.send msgINVOKE (.invoke "c" false 1 2 0 100 "m" .nil)], some (.sendErr 3)) ∧
    Proxy.GetAPI initialState { env0 with sendErr := some 3 } 7 "c"
      = ({ initialState with frame := [{ addr := none, ctx := 7 }] },
         [.send msgGETAPI (.getApiReq "c")], some (.sendErr 3)) :=
  failed_send_keeps_pushed_frame initialState { env0 with sendErr := some 3 }
    7 "c" false 1 2 0 100 "m" .nil 3 rfl

theorem countOnReady_append (a b : List Effect) :
    countOnReady (a ++ b) = countOnReady a + countOnReady b := by
  simp [countOnReady, List.countP_append]

theorem dispatch_inv (p : ProxyState) (env : Env) (m : InMsg) (r : Res)
    (h : dispatch p env m = some r) :
    ∃ e2 : List Effect, Proxy.HandleMessage p env m = some (r.1, e2, r.2.2) ∧
      countOnReady r.2.1 = countOnReady e2 := by
  unfold dispatch at h
  cases hh : Proxy.HandleMessage p env m with
  | none => simp [hh] at h
  | some r0 =>
    obtain ⟨p0, effs0, err0⟩ := r0
    rw [hh] at h
    cases err0 with
    | none =>
      simp only [Option.some.injEq] at h
      subst h
      exact ⟨effs0, by simpa using hh, rfl⟩
    | some e =>
      simp only [Option.some.injEq] at h
      subst h
      exact ⟨effs0, by simpa using hh, by simp [countOnReady_append, countOnReady]⟩

theorem handleMessage_reserved (p : ProxyState) (env : Env) (m : InMsg) (r : Res)
    (h : Proxy.HandleMessage p env m = some r) : r.1.reserved = p.reserved := by
  cases m <;>
    simp only [Proxy.HandleMessage, handleGetInfo, terminalTail, sendOut] at h <;>
    (repeat' split at h) <;> (try simp only [Option.some.injEq] at h) <;>
    (try subst h) <;> simp_all

theorem handleMessage_identity (p : ProxyState) (env : Env) (m : InMsg) (r : Res)
    (hm : ∀ v u t, m ≠ .version v u t) (h : Proxy.HandleMessage p env m = some r) :
    r.1.version = p.version ∧ r.1.uid = p.uid ∧ r.1.scoreType = p.scoreType := by
  cases m with
  | version v u t => exact absurd rfl (hm v u t)
  | _ =>
    simp only [Proxy.HandleMessage, handleGetInfo, terminalTail, sendOut] at h <;>
    (repeat' split at h) <;> (try simp only [Option.some.injEq] at h) <;>
    (try subst h) <;> simp_all

theorem handleMessage_frame (p : ProxyState) (env : Env) (m : InMsg) (r : Res)
    (h : Proxy.HandleMessage p env m = some r) :
    r.1.frame.length + stepPops (.recv m) = p.frame.length := by
  cases m <;>
    simp only [Proxy.HandleMessage, handleGetInfo, terminalTail, sendOut,
      stepPops] at h ⊢ <;>
    (repeat' split at h) <;> (try simp only [Option.some.injEq] at h) <;>
    (try subst h) <;> simp_all

theorem step_frame_length (p : ProxyState) (s : Step) (env : Env) (r : Res)
    (h : step p s env = some r) :
    r.1.frame.length + stepPops s = p.frame.length + stepPushes s := by
  cases s with
  | reserve =>
    simp only [step, Option.some.injEq] at h
    subst h
    unfold Proxy.reserve
    split <;> simp [stepPops, stepPushes]
  | release =>
    simp only [step, Option.some.injEq] at h
    subst h
    unfold Proxy.Release
    (repeat' split) <;> simp [stepPops, stepPushes] <;>
      (repeat' split) <;> simp
  | invoke ctx code q fa ta v l mth prm =>
    simp only [step, Proxy.Invoke, sendOut, Option.some.injEq] at h
    cases he : env.sendErr <;> rw [he] at h <;> subst h <;>
      simp [stepPops, stepPushes]
  | getAPI ctx code =>
    simp only [step, Proxy.GetAPI, sendOut, Option.some.injEq] at h
    cases he : env.sendErr <;> rw [he] at h <;> subst h <;>
      simp [stepPops, stepPushes]
  | sendResult ctx st sp res =>
    simp only [step, Proxy.SendResult, sendOut, Option.some.injEq] at h
    cases he : env.sendErr <;> rw [he] at h <;> subst h <;>
      simp [stepPops, stepPushes]
  | recv m =>
    simp only [step] at h
    obtain ⟨e2, hh, _⟩ := dispatch_inv p env m r h
    have hf := handleMessage_frame p env m (r.1, e2, r.2.2) hh
    simpa [stepPushes] using hf

/-- C1: over any trace of host calls and inbound messages in which every
inbound message is dispatched without error (and without panicking), the
frame-stack depth change equals the number of `invoke` plus `get_api`
calls minus the number of RESULT plus GETAPI-response messages delivered:
each `invoke`/`get_api` pushes exactly one frame, each RESULT or
GETAPI-response pops exactly one frame, and no other step changes the
depth. -/
theorem frame_stack_depth (tr : List (Step × Env)) :
    ∀ p p' : ProxyState, run p tr = some p' →
      p'.frame.length + pops tr = p.frame.length + pushes tr := by
  induction tr with
  | nil =>
    intro p p' h
    simp only [run, Option.some.injEq] at h
    subst h
    simp [pops, pushes]
  | cons se rest ih =>
    intro p p' h
    obtain ⟨s, env⟩ := se
    simp only [run] at h
    cases hs : step p s env with
    | none => rw [hs] at h; simp at h
    | some r =>
      rw [hs] at h
      obtain ⟨p1, effs, err⟩ := r
      have hlen := step_frame_length p s env (p1, effs, err) hs
      have hcont : run p1 rest = some p' := by
        cases s <;> cases err <;> simp_all
      have hrec := ih p1 p' hcont
      simp only [pops, pushes, List.map_cons, List.sum_cons] at hrec hlen ⊢
      omega

/-- Witness for `frame_stack_depth` on the spec's minimal happy path
(VERSION, reserve, invoke, terminal RESULT): one push, one pop, final
depth zero. -/
theorem frame_stack_depth_witness :
    run initialState
      [(.recv (.version 1 "u" "python"), env0), (.reserve, env0),
       (.invoke 7 "c" false 1 2 0 100 "m" .nil, env0),
       (.recv (.result 0 42 .nil), env0)]
      = some { reserved := true, version := 1, uid := "u", scoreType := 0, frame := [] } ∧
    ({ reserved := true, version := 1, uid := "u", scoreType := 0,
       frame := ([] : List callFrame) } : ProxyState).frame.length +
      pops [(.recv (.version 1 "u" "python"), env0), (.reserve, env0),
            (.invoke 7 "c" false 1 2 0 100 "m" .nil, env0),
            (.recv (.result 0 42 .nil), env0)]
      = initialState.frame.length +
        pushes [(.recv (.version 1 "u" "python"), env0), (.reserve, env0),
                (.invoke 7 "c" false 1 2 0 100 "m" .nil, env0),
                (.recv (.result 0 42 .nil), env0)] :=
  ⟨by decide, frame_stack_depth _ initialState _ (by decide)⟩

/-- C3 (counterexample): the identity fields are re-assigned by every
VERSION message, not only the first one — after a second VERSION message
the recorded `uid` and `version` have changed, contradicting the claim
that they never change after the first VERSION. -/
theorem identity_fields_cex :
    (run initialState [(.recv (.version 1 "u" "python"), env0)]).map ProxyState.uid
      = some "u" ∧
    (run initialState [(.recv (.version 1 "u" "python"), env0),
        (.recv (.version 2 "v" "python"), env0)]).map ProxyState.uid
      = some "v" ∧
    (run initialState [(.recv (.version 1 "u" "python"), env0),
        (.recv (.version 2 "v" "python"), env0)]).map ProxyState.version
      = some 2 := by
  refine ⟨by decide, by decide, by decide⟩

/-- C3 (amended): each handled VERSION message assigns `version` and `uid`
(and `scoreType` when the kind string is known); every other step — any
other inbound message or any host call — leaves `version`, `uid` and
`scoreType` unchanged.  Hence when the engine sends VERSION exactly once,
the fields are set once and never mutate thereafter. -/
theorem identity_fields_characterization :
    (∀ p s env r, isVersionStep s = false → step p s env = some r →
       r.1.version = p.version ∧ r.1.uid = p.uid ∧ r.1.scoreType = p.scoreType) ∧
    (∀ p env v u t r, Proxy.HandleMessage p env (.version v u t) = some r →
       r.1.version = v ∧ r.1.uid = u ∧
       r.1.scoreType = (scoreNameToType t).getD p.scoreType) := by
  constructor
  · intro p s env r hv h
    cases s with
    | reserve =>
      simp only [step, Option.some.injEq] at h
      subst h
      unfold Proxy.reserve
      split <;> simp
    | release =>
      simp only [step, Option.some.injEq] at h
      subst h
      unfold Proxy.Release
      (repeat' split) <;> simp <;> (repeat' split) <;> simp
    | invoke ctx code q fa ta v l mth prm =>
      simp only [step, Proxy.Invoke, sendOut, Option.some.injEq] at h
      cases he : env.sendErr <;> rw [he] at h <;> subst h <;> simp
    | getAPI ctx code =>
      simp only [step, Proxy.GetAPI, sendOut, Option.some.injEq] at h
      cases he : env.sendErr <;> rw [he] at h <;> subst h <;> simp
    | sendResult ctx st sp res =>
      simp only [step, Proxy.SendResult, sendOut, Option.some.injEq] at h
      cases he : env.sendErr <;> rw [he] at h <;> subst h <;> simp
    | recv m =>
      simp only [step] at h
      obtain ⟨e2, hh, _⟩ := dispatch_inv p env m r h
      refine handleMessage_identity p env m (r.1, e2, r.2.2) ?_ hh
      intro v u t hm
      subst hm
      simp [isVersionStep] at hv
  · intro p env v u t r h
    simp only [Proxy.HandleMessage] at h
    cases ht : scoreNameToType t <;> rw [ht] at h
    · simp only [Option.some.injEq] at h
      subst h
      simp
    · cases he : env.onReadyErr <;> rw [he] at h <;>
        simp only [Option.some.injEq] at h <;> subst h <;> simp [ht]

/-- Witness for `identity_fields_characterization`: a RESULT delivery
leaves the identity fields unchanged, and a VERSION message sets them. -/
theorem identity_fields_characterization_witness :
    (({ reserved := true, version := 1, uid := "u", scoreType := 0,
        frame := [] } : ProxyState).version = 1 ∧
      ("u" : String) = "u" ∧ (0 : ScoreType) = 0) ∧
    ((1 : Nat) = 1 ∧ ("u" : String) = "u" ∧
      (0 : ScoreType) = (scoreNameToType "python").getD initialState.scoreType) := by
  constructor
  · have h := identity_fields_characterization.1
      { reserved := true, version := 1, uid := "u", scoreType := 0,
        frame := [{ addr := some 2, ctx := 7 }] }
      (.recv (.result 0 42 .nil)) env0
      ({ reserved := true, version := 1, uid := "u", scoreType := 0, frame := [] },
        [Effect.onResult 7 0 42 .nil], none)
      (by decide) (by decide)
    simpa using h
  · have h := identity_fields_characterization.2 initialState env0 1 "u" "python"
      ({ reserved := false, version := 1, uid := "u", scoreType := 0, frame := [] },
        [Effect.onReady 0], none) (by decide)
    simpa using h

/-- C5 (counterexample): after `reserve()` returned `true` and the
engine's terminal RESULT popped the last frame, `reserve()` still returns
`false` — the `reserved` flag is not cleared by a terminal pop,
contradicting the claim that a terminal pop clears it. -/
theorem reserve_after_terminal_pop_cex :
    run initialState
      [(.recv (.version 1 "u" "python"), env0), (.reserve, env0),
       (.invoke 7 "c" false 1 2 0 100 "m" .nil, env0),
       (.recv (.result 0 42 .nil), env0)]
      = some { reserved := true, version := 1, uid := "u", scoreType := 0, frame := [] } ∧
    Proxy.reserve { reserved := true, version := 1, uid := "u", scoreType := 0, frame := [] }
      = ({ reserved := true, version := 1, uid := "u", scoreType := 0, frame := [] },
         false) := by
  refine ⟨by decide, by decide⟩

/-- C5 (amended): `reserve()` is a test-and-set that returns `false`
whenever the flag is already set, and the flag is cleared only by
`release()`: every step other than a host `release()` — including the
delivery of a terminal RESULT or GETAPI-response — leaves `reserved=true`
set. -/
theorem reserve_cleared_only_by_release :
    (∀ p : ProxyState, p.reserved = true → Proxy.reserve p = (p, false)) ∧
    (∀ p s env r, p.reserved = true → isRelease s = false →
       step p s env = some r → r.1.reserved = true) ∧
    (∀ p env, ((Proxy.Release p env).1).reserved = false) := by
  refine ⟨?_, ?_, ?_⟩
  · intro p hp
    unfold Proxy.reserve
    simp [hp]
  · intro p s env r hp hs h
    cases s with
    | reserve =>
      simp only [step, Option.some.injEq] at h
      subst h
      unfold Proxy.reserve
      split <;> simp_all
    | release => simp [isRelease] at hs
    | invoke ctx code q fa ta v l mth prm =>
      simp only [step, Proxy.Invoke, sendOut, Option.some.injEq] at h
      cases he : env.sendErr <;> rw [he] at h <;> subst h <;> simp_all
    | getAPI ctx code =>
      simp only [step, Proxy.GetAPI, sendOut, Option.some.injEq] at h
      cases he : env.sendErr <;> rw [he] at h <;> subst h <;> simp_all
    | sendResult ctx st sp res =>
      simp only [step, Proxy.SendResult, sendOut, Option.some.injEq] at h
      cases he : env.sendErr <;> rw [he] at h <;> subst h <;> simp_all
    | recv m =>
      simp only [step] at h
      obtain ⟨e2, hh, _⟩ := dispatch_inv p env m r h
      have := handleMessage_reserved p env m (r.1, e2, r.2.2) hh
      simp_all
  · intro p env
    unfold Proxy.Release
    (repeat' split) <;> simp_all <;> (repeat' split) <;> simp_all

/-- Witness for `reserve_cleared_only_by_release` on a reserved proxy and
a terminal RESULT delivery. -/
theorem reserve_cleared_only_by_release_witness :
    Proxy.reserve { reserved := true, version := 1, uid := "u", scoreType := 0, frame := [] }
      = ({ reserved := true, version := 1, uid := "u", scoreType := 0, frame := [] },
         false) ∧
    ({ reserved := true, version := 1, uid := "u", scoreType := 0,
       frame := ([] : List callFrame) } : ProxyState).reserved = true := by
  constructor
  · exact reserve_cleared_only_by_release.1 _ rfl
  · exact reserve_cleared_only_by_release.2.1
      { reserved := true, version := 1, uid := "u", scoreType := 0,
        frame := [{ addr := some 2, ctx := 7 }] }
      (.recv (.result 0 42 .nil)) env0
      ({ reserved := true, version := 1, uid := "u", scoreType := 0, frame := [] },
        [Effect.onResult 7 0 42 .nil], none)
      rfl rfl (by decide)

theorem no_transition_self (p : ProxyState) :
    (if isIdle p = false ∧ isIdle p = true then 1 else 0) = 0 := by
  cases hi : isIdle p <;> simp [hi]

theorem terminalTail_onready (p1 : ProxyState) (env : Env) (effs : List Effect)
    (r : Res) (hc : countOnReady effs = 0) (h : terminalTail p1 env effs = r) :
    r.1 = p1 ∧ countOnReady r.2.1 = if isIdle p1 = true then 1 else 0 := by
  unfold terminalTail at h
  split at h
  next hcond =>
    have hidle : isIdle p1 = true := hcond
    cases he : env.onReadyErr <;> rw [he] at h <;> subst h <;>
      simp_all [countOnReady_append, countOnReady]
  next hcond =>
    have hidle : isIdle p1 = false := by
      simpa [isIdle] using hcond
    subst h
    simp [hidle, hc]

theorem handleMessage_onready (p : ProxyState) (env : Env) (m : InMsg) (r : Res)
    (hm : ∀ v u t, m ≠ .version v u t) (h : Proxy.HandleMessage p env m = some r) :
    countOnReady r.2.1 = if isIdle p = false ∧ isIdle r.1 = true then 1 else 0 := by
  cases m with
  | version v u t => exact absurd rfl (hm v u t)
  | result status stepUsed res =>
    simp only [Proxy.HandleMessage] at h
    cases hf : p.frame with
    | nil => rw [hf] at h; exact absurd h (by simp)
    | cons f rest =>
      rw [hf] at h
      simp only [Option.some.injEq] at h
      obtain ⟨h1, h2⟩ := terminalTail_onready _ env _ r (by simp [countOnReady]) h
      have hip : isIdle p = false := by simp [isIdle, hf]
      rw [h2, h1, hip]
      simp
  | getApi status info =>
    simp only [Proxy.HandleMessage] at h
    cases hf : p.frame with
    | nil => rw [hf] at h; exact absurd h (by simp)
    | cons f rest =>
      rw [hf] at h
      simp only [Option.some.injEq] at h
      obtain ⟨h1, h2⟩ := terminalTail_onready _ env _ r (by simp [countOnReady]) h
      have hip : isIdle p = false := by simp [isIdle, hf]
      rw [h2, h1, hip]
      simp
  | _ =>
    simp only [Proxy.HandleMessage, handleGetInfo, sendOut] at h <;>
    (repeat' split at h) <;> (try simp only [Option.some.injEq] at h) <;>
    (try subst h) <;> simp_all [countOnReady, no_transition_self]

/-- C2 (amended): provided VERSION is received only as the first message
of the connection, `onReady` is emitted exactly once per step that moves
the proxy from non-idle (non-empty frame stack or reserved) to idle (empty
stack and unreserved): every non-VERSION step emits one `onReady` iff it
makes that transition and none otherwise, and the handshake VERSION (from
the pristine state, with a known engine kind) emits exactly one `onReady`
and leaves the proxy idle.  A further VERSION message, however, invokes
`onReady` unconditionally — even while reserved or mid-invocation — which
is what forces this amendment. -/
theorem onready_iff_idle_transition :
    (∀ p s env r, isVersionStep s = false → step p s env = some r →
       countOnReady r.2.1 = if isIdle p = false ∧ isIdle r.1 = true then 1 else 0) ∧
    (∀ v u t st env r, scoreNameToType t = some st →
       step initialState (.recv (.version v u t)) env = some r →
       countOnReady r.2.1 = 1 ∧ isIdle r.1 = true) := by
  constructor
  · intro p s env r hv h
    cases s with
    | reserve =>
      simp only [step, Option.some.injEq] at h
      subst h
      unfold Proxy.reserve
      split <;> simp_all [countOnReady, no_transition_self, isIdle]
    | release =>
      simp only [step, Option.some.injEq] at h
      subst h
      unfold Proxy.Release
      (repeat' split) <;>
        simp_all [countOnReady, no_transition_self, isIdle] <;>
        (repeat' split) <;> simp_all
    | invoke ctx code q fa ta v l mth prm =>
      simp only [step, Proxy.Invoke, sendOut, Option.some.injEq] at h
      cases he : env.sendErr <;> rw [he] at h <;> subst h <;>
        simp [countOnReady, isIdle]
    | getAPI ctx code =>
      simp only [step, Proxy.GetAPI, sendOut, Option.some.injEq] at h
      cases he : env.sendErr <;> rw [he] at h <;> subst h <;>
        simp [countOnReady, isIdle]
    | sendResult ctx st sp res =>
      simp only [step, Proxy.SendResult, sendOut, Option.some.injEq] at h
      cases he : env.sendErr <;> rw [he] at h <;> subst h <;>
        simp [countOnReady, no_transition_self]
    | recv m =>
      simp only [step] at h
      obtain ⟨e2, hh, hcnt⟩ := dispatch_inv p env m r h
      rw [hcnt]
      exact handleMessage_onready p env m (r.1, e2, r.2.2)
        (fun v u t hm => by subst hm; simp [isVersionStep] at hv) hh
  · intro v u t st env r ht h
    simp only [step, dispatch, Proxy.HandleMessage, ht] at h
    cases he : env.onReadyErr <;> rw [he] at h <;> simp only at h <;>
      simp only [Option.some.injEq] at h <;> subst h <;>
      simp [countOnReady, isIdle, initialState]

/-- C2 (counterexample): from a reachable state with a reserved proxy and
a frame in flight, a second VERSION message still invokes `onReady` — so
`onReady` is invoked while `reserved=true` and while the frame stack is
non-empty, contradicting the claim. -/
theorem onready_while_reserved_cex :
    run initialState
      [(.recv (.version 1 "u" "python"), env0), (.reserve, env0),
       (.invoke 7 "c" false 1 2 0 100 "m" .nil, env0)]
      = some { reserved := true, version := 1, uid := "u", scoreType := 0,
               frame := [{ addr := some 2, ctx := 7 }] } ∧
    step { reserved := true, version := 1, uid := "u", scoreType := 0,
           frame := [{ addr := some 2, ctx := 7 }] }
        (.recv (.version 1 "u" "python")) env0
      = some ({ reserved := true, version := 1, uid := "u", scoreType := 0,
                frame := [{ addr := some 2, ctx := 7 }] },
              [.onReady 0], none) ∧
    countOnReady [Effect.onReady 0] = 1 := by
  refine ⟨by decide, by decide, by decide⟩

/-- Witness for `onready_iff_idle_transition`: a `release()` on a
reserved, stack-empty proxy emits exactly one `onReady`. -/
theorem onready_iff_idle_transition_witness :
    isVersionStep .release = false ∧
    step { reserved := true, version := 1, uid := "u", scoreType := 0, frame := [] }
        .release env0
      = some ({ reserved := false, version := 1, uid := "u", scoreType := 0, frame := [] },
              [.onReady 0], none) ∧
    countOnReady [Effect.onReady 0] = 1 := by
  refine ⟨rfl, by decide, ?_⟩
  have h := onready_iff_idle_transition.1
    { reserved := true, version := 1, uid := "u", scoreType := 0, frame := [] }
    .release env0
    ({ reserved := false, version := 1, uid := "u", scoreType := 0, frame := [] },
      [.onReady 0], none) rfl (by decide)
  simpa [isIdle] using h

theorem handleMessage_onready_err (p : ProxyState) (env : Env) (m : InMsg) (r : Res)
    (he : env.onReadyErr.isSome = true) (h : Proxy.HandleMessage p env m = some r)
    (hc : 0 < countOnReady r.2.1) : r.2.2.isSome = true := by
  cases m <;>
    simp only [Proxy.HandleMessage, handleGetInfo, terminalTail, sendOut] at h <;>
    (repeat' split at h) <;> (try simp only [Option.some.injEq] at h) <;>
    (try subst h) <;> simp_all [countOnReady]

/-- C9: whenever the manager's `onReady` callback is invoked and returns
an error, the transport is closed: directly by `Release` at its call site,
and — for the call sites inside dispatch (after VERSION and after a
terminal pop that drains the stack) — by the connection loop that aborts
the connection on any dispatch error. -/
theorem onready_error_closes :
    (∀ p env, env.onReadyErr.isSome = true →
       0 < countOnReady (Proxy.Release p env).2 →
       Effect.close ∈ (Proxy.Release p env).2) ∧
    (∀ p env m r, env.onReadyErr.isSome = true → dispatch p env m = some r →
       0 < countOnReady r.2.1 → Effect.close ∈ r.2.1) := by
  constructor
  · intro p env he hc
    unfold Proxy.Release at hc ⊢
    by_cases hr : p.reserved = true
    · rw [if_pos hr] at hc ⊢
      by_cases hf : p.frame.isEmpty = true
      · rw [if_pos hf] at hc ⊢
        split <;> simp_all
      · rw [if_neg hf] at hc
        simp [countOnReady] at hc
    · rw [if_neg hr] at hc
      simp [countOnReady] at hc
  · intro p env m r he hd hc
    unfold dispatch at hd
    cases hh : Proxy.HandleMessage p env m with
    | none => rw [hh] at hd; exact absurd hd (by simp)
    | some r0 =>
      obtain ⟨p0, effs0, err0⟩ := r0
      rw [hh] at hd
      cases err0 with
      | none =>
        simp only [Option.some.injEq] at hd
        subst hd
        have := handleMessage_onready_err p env m (p0, effs0, none) he hh hc
        simp at this
      | some e =>
        simp only [Option.some.injEq] at hd
        subst hd
        simp

/-- Witness for `onready_error_closes`: a failing `onReady` after the
VERSION handshake is followed by a transport close in the dispatch
effects. -/
theorem onready_error_closes_witness :
    ({ env0 with onReadyErr := some 5 } : Env).onReadyErr.isSome = true ∧
    dispatch initialState { env0 with onReadyErr := some 5 } (.version 1 "u" "python")
      = some ({ reserved := false, version := 1, uid := "u", scoreType := 0, frame := [] },
              [.onReady 0, .close], some (.onReadyErr 5)) ∧
    Effect.close ∈ [Effect.onReady 0, Effect.close] := by
  refine ⟨rfl, by decide, ?_⟩
  exact onready_error_closes.2 initialState { env0 with onReadyErr := some 5 }
    (.version 1 "u" "python")
    ({ reserved := false, version := 1, uid := "u", scoreType := 0, frame := [] },
      [.onReady 0, .close], some (.onReadyErr 5))
    rfl (by decide) (by decide)

end EEProxy
